import Mathlib

/-!
Verification of the monty module/import resolution core and of the
symbol-listing generator `magic.py`.

The first part embeds `magic.py`: the three fixed vocabulary tables and the
line-by-line output of the generator script.  The second part models the
resolution core (SourceLocator, ModuleRegistry, ImportResolver and
CompiledProgram) described by the specification.
-/

set_option autoImplicit false

namespace Monty

/-! ## Part 1: the symbol-listing generator `magic.py` -/

/-- The `BUILTINS` table of `magic.py`: the `__name__` of each member of the
Python set literal, in source order. -/
def BUILTINS : List String :=
  ["float", "int", "str", "object", "bool", "type", "dict", "set", "list",
   "tuple", "isinstance", "id"]

/-- The `DUNDERS` table of `magic.py`, in source order. -/
def DUNDERS : List String :=
  ["add", "sub", "pow", "mul", "eq", "ne", "and", "or", "lshift", "rshift",
   "div", "getattr", "getattribute", "getitem"]

/-- The `CTYPES` table of `magic.py`, in source order. -/
def CTYPES : List String :=
  ["char", "byte", "double", "longdouble", "float", "int", "int8", "int32",
   "int64", "long", "longlong", "size_t", "ssize_t", "ubyte", "uint",
   "uint8", "uint16", "uint32", "uint64", "ulong", "ulonglong", "ushort",
   "void", "wchar", "bool"]

/-- The first line printed by `magic.py` (the string passed to the first
`print` call, whose trailing newline produces a following empty line). -/
def header : String :=
  "# DO NOT EDIT THIS FILE: automatically generated from \x27magic.py\x27 in the repository root."

/-- Lines printed by the `for dunder in DUNDERS` loop of `magic.py`: the
special-method name, then — except for `eq` — its reflected counterpart. -/
def dunderLines (ds : List String) : List String :=
  ds.flatMap (fun d =>
    ("__" ++ d ++ "__  # type: ignore") ::
      (if d = "eq" then [] else ["__r" ++ d ++ "__  # type: ignore"]))

/-- Lines printed by the `for ctype in CTYPES` loop of `magic.py`: the alias
`c_<t>` and its pointer variant `c_<t>_p`. -/
def ctypeLines (cs : List String) : List String :=
  cs.flatMap (fun c =>
    ["c_" ++ c ++ "  # type: ignore", "c_" ++ c ++ "_p # type: ignore"])

/-- The full sequence of lines printed by `magic.py`, parameterised by the
contents of the three tables (Python iterates its sets in an unspecified
order, so the table arguments are lists standing for one such order). -/
def magicOutput (bs ds cs : List String) : List String :=
  header :: "" ::
    (bs ++ dunderLines ds ++ ctypeLines cs ++ ["__value  # type: ignore"])

/-- The characters of a printed line up to (excluding) the first space. -/
def takeUntilSpace : List Char → List Char
  | [] => []
  | c :: rest => if c = ' ' then [] else c :: takeUntilSpace rest

/-- The identifier a printed line contributes to the symbol listing: the
line's text up to the first space (the rest is the `# type: ignore`
annotation). -/
def nameOf (line : String) : String := String.mk (takeUntilSpace line.data)

/-- The identifiers emitted by `magic.py`, i.e. the name of every printed
line after the header and the blank line that follows it. -/
def magicNames (bs ds cs : List String) : List String :=
  ((magicOutput bs ds cs).drop 2).map nameOf

/-! ## Part 2: the module/import resolution core

The package implementing `compile`, `CompiledProgram.import_module`,
`SourceLocator`, `ModuleRegistry` and `ImportResolver` is exercised by
`tests/test_import.py` but its code is not part of the given sources, so the
definitions below are modelled from the specification. -/

/-- Modelled from the spec: an `ImportDeclaration` — immutable dotted module
name (identifier segments), optional alias, optional imported symbol names;
equality is componentwise. -/
structure ImportDeclaration where
  moduleName : List String
  aliasName : Option String := none
  symbols : List String := []

deriving DecidableEq

/-- Modelled from the spec: a resolved `Module` with canonical dotted name,
filesystem path of the backing artifact, non-null builder once resolution
succeeded, and the import set parsed from its own source. -/
structure Module where
  name : String
  path : String
  builder : Option String
  imports : List ImportDeclaration

deriving DecidableEq

/-- Modelled from the spec: resolver configuration — the ordered search
roots and the source file extension. -/
structure Config where
  searchRoots : List String
  ext : String

deriving DecidableEq

/-- Modelled from the spec: the filesystem and parser seen by the resolver —
each existing artifact path together with the import declarations parsing it
yields. -/
structure World where
  files : List (String × List ImportDeclaration)

deriving DecidableEq

/-- Modelled from the spec: the error taxonomy of the resolution core
(`outOfFuel` is the bookkeeping value returned when the recursion budget of
the embedding is exhausted; the theorems show it never occurs at sufficient
budget). -/
inductive ImportError where
  | moduleNotFound (name : String) (rootsTried : List String)
  | circularImport (cycle : List String)
  | outOfFuel

deriving DecidableEq

/-- Modelled from the spec: mutable resolver state — the module registry
(association list keyed by canonical name) plus the log of artifact paths
read and parsed so far (the parse-count probe of the test scenario). -/
structure RState where
  modules : List (String × Module)
  readLog : List String

deriving DecidableEq

deriving instance DecidableEq for Except

/-- Registry lookup by canonical module name. -/
def lookupReg : List (String × Module) → String → Option Module
  | [], _ => none
  | (k, v) :: rest, n => if k = n then some v else lookupReg rest n

/-- The canonical names currently registered. -/
def regNames (reg : List (String × Module)) : List String := reg.map Prod.fst

/-- Look up the parsed import declarations of an artifact path. -/
def lookupFile : List (String × List ImportDeclaration) → String →
    Option (List ImportDeclaration)
  | [], _ => none
  | (k, v) :: rest, p => if k = p then some v else lookupFile rest p

/-- The canonical dotted name of a segment list (segments joined by `.`). -/
def canonName : List String → String
  | [] => ""
  | [s] => s
  | s :: rest => s ++ "." ++ canonName rest

/-- The segments joined by the path separator. -/
def joinSegs : List String → String
  | [] => ""
  | [s] => s
  | s :: rest => s ++ "/" ++ joinSegs rest

/-- Modelled from the spec: candidate (a) of the locator — the single-file
module `<root>/<segments joined by the path separator>.ext`. -/
def modulePath (root ext : String) (segs : List String) : String :=
  root ++ "/" ++ joinSegs segs ++ "." ++ ext

/-- Modelled from the spec: candidate (b) of the locator — the package
`<root>/<segments...>/__init__.ext`. -/
def initPath (root ext : String) (segs : List String) : String :=
  root ++ "/" ++ joinSegs segs ++ "/__init__." ++ ext

/-- The paths that exist in the modelled filesystem. -/
def fileNames (w : World) : List String := w.files.map Prod.fst

/-- Modelled from the spec: `SourceLocator.locate` — probe each search root
in order, checking the single-file candidate first and the package candidate
second; the first match wins, `none` signals not-found. -/
def locate (w : World) (ext : String) : List String → List String → Option String
  | [], _ => none
  | r :: rest, segs =>
    if modulePath r ext segs ∈ fileNames w then some (modulePath r ext segs)
    else if initPath r ext segs ∈ fileNames w then some (initPath r ext segs)
    else locate w ext rest segs

/-- The probe of a single search root: single-file candidate first, then the
package candidate. -/
def rootProbe (w : World) (ext : String) (segs : List String) (r : String) :
    Option String :=
  if modulePath r ext segs ∈ fileNames w then some (modulePath r ext segs)
  else if initPath r ext segs ∈ fileNames w then some (initPath r ext segs)
  else none

/-- Modelled from the spec: the reported cycle — the sequence of names from
the repeated name back to itself, read off the in-progress stack. -/
def cycleOf (pending : List String) (nm : String) : List String :=
  nm :: ((pending.takeWhile (fun x => x != nm)).reverse ++ [nm])

/-- One resolution step over a list of import declarations: resolve each in
order with the resolver `f`, stopping at the first error. -/
def resolveList (f : List String → RState → List String →
      Except ImportError Module × RState)
    (pending : List String) : RState → List ImportDeclaration →
      Except ImportError Unit × RState
  | st, [] => (Except.ok Unit.unit, st)
  | st, d :: rest =>
    match f pending st d.moduleName with
    | (Except.error e, st2) => (Except.error e, st2)
    | (Except.ok _, st2) => resolveList f pending st2 rest

/-- Modelled from the spec: `ImportResolver.importModule` — canonicalize the
name, consult the registry (memoization), detect cycles via the in-progress
stack, locate the artifact, read and parse it, recursively resolve its
own imports, then register and return the fully populated module.  `fuel`
bounds the recursion depth of the embedding. -/
def resolveSegs (w : World) (cfg : Config) : Nat → List String → RState →
    List String → Except ImportError Module × RState
  | 0, _, st, _ => (Except.error ImportError.outOfFuel, st)
  | fuel + 1, pending, st, segs =>
    match lookupReg st.modules (canonName segs) with
    | some m => (Except.ok m, st)
    | none =>
      if canonName segs ∈ pending then
        (Except.error (ImportError.circularImport (cycleOf pending (canonName segs))), st)
      else
        match locate w cfg.ext cfg.searchRoots segs with
        | none =>
          (Except.error (ImportError.moduleNotFound (canonName segs) cfg.searchRoots), st)
        | some p =>
          match lookupFile w.files p with
          | none =>
            (Except.error (ImportError.moduleNotFound (canonName segs) cfg.searchRoots), st)
          | some decls =>
            match resolveList (resolveSegs w cfg fuel) (canonName segs :: pending)
                { st with readLog := p :: st.readLog } decls with
            | (Except.error e, st2) => (Except.error e, st2)
            | (Except.ok _, st2) =>
              (Except.ok
                { name := canonName segs, path := p, builder := some p,
                  imports := decls },
               { st2 with
                  modules :=
                    (canonName segs,
                      { name := canonName segs, path := p, builder := some p,
                        imports := decls }) :: st2.modules })

/-- Split a character list at every occurrence of the separator. -/
def splitOnChar (sep : Char) : List Char → List (List Char)
  | [] => [[]]
  | c :: rest =>
    if c = sep then [] :: splitOnChar sep rest
    else
      match splitOnChar sep rest with
      | [] => [[c]]
      | h :: t => (c :: h) :: t

/-- Strip a leading match of `pat` from `cs`, returning the rest. -/
def matchStart : List Char → List Char → Option (List Char)
  | [], cs => some cs
  | _, [] => none
  | p :: ps, c :: cs => if p = c then matchStart ps cs else none

/-- Modelled from the spec: the external Parser's view of an entry source
text — each top-level line consisting of the keyword `import` followed by a
dotted name becomes one import declaration. -/
def parseImports (src : String) : List (List String) :=
  (splitOnChar '\n' src.data).filterMap (fun line =>
    match matchStart "import ".data line with
    | some rest => some ((splitOnChar '.' rest).map String.mk)
    | none => none)

/-- An import declaration with only a module name (no alias, no symbols). -/
def mkDecl (segs : List String) : ImportDeclaration := { moduleName := segs }

/-- Modelled from the spec: the `CompiledProgram` artifact — the module
mapping (with the entry module under `"__main__"`) plus the world and search
configuration its `import_module` is bound to. -/
structure CompiledProgram where
  world : World
  cfg : Config
  state : RState

deriving DecidableEq

/-- Modelled from the spec: `compile(sourceText)` — parse the entry source,
record its import set on a synthetic entry module registered as
`"__main__"`; imports themselves are resolved lazily. -/
def compile (w : World) (cfg : Config) (src : String) : CompiledProgram :=
  { world := w, cfg := cfg,
    state :=
      { modules :=
          [("__main__",
            { name := "__main__", path := "<main>", builder := some "<main>",
              imports := (parseImports src).map mkDecl })],
        readLog := [] } }

/-- Modelled from the spec: `CompiledProgram.import_module(decl)` — forward
to the resolver bound to this program's registry and configuration. -/
def importModule (p : CompiledProgram) (decl : ImportDeclaration) (fuel : Nat) :
    Except ImportError Module × CompiledProgram :=
  ((resolveSegs p.world p.cfg fuel [] p.state decl.moduleName).1,
   { p with state := (resolveSegs p.world p.cfg fuel [] p.state decl.moduleName).2 })

/-- The world of the `test_import.py` scenario: a search root `lib` holding
the artifact of the `builtins` module, which itself imports nothing. -/
def builtinsWorld : World := { files := [("lib/builtins.py", [])] }

/-- The search configuration of the `test_import.py` scenario. -/
def builtinsConfig : Config := { searchRoots := ["lib"], ext := "py" }

/-- The registry-evolution contract of one resolver call at in-progress
stack `pending`: names on the stack keep their (absent) bindings, existing
bindings are never overwritten or removed, and key uniqueness is
preserved. -/
def RegPre (pending : List String) (mods mods2 : List (String × Module)) : Prop :=
  (∀ n, n ∈ pending → lookupReg mods2 n = lookupReg mods n) ∧
  (∀ n m, lookupReg mods n = some m → lookupReg mods2 n = some m) ∧
  ((regNames mods).Nodup → (regNames mods2).Nodup)

/-- The entry module of the `test_import.py` scenario. -/
def mainMod : Module :=
  { name := "__main__", path := "<main>", builder := some "<main>",
    imports := [mkDecl ["builtins"]] }

/-- The `builtins` module as resolved in the `test_import.py` scenario. -/
def bMod : Module :=
  { name := "builtins", path := "lib/builtins.py",
    builder := some "lib/builtins.py", imports := [] }

/-- The program state after resolving `builtins` in the scenario. -/
def bProg2 : CompiledProgram :=
  { world := builtinsWorld, cfg := builtinsConfig,
    state :=
      { modules := [("builtins", bMod), ("__main__", mainMod)],
        readLog := ["lib/builtins.py"] } }

/-- The world of the retry scenario: module `m` lives under root `lib`. -/
def retryWorld : World := { files := [("lib/m.py", [])] }

/-- A configuration whose search root does not contain module `m`. -/
def wrongConfig : Config := { searchRoots := ["nope"], ext := "py" }

/-- The corrected configuration whose search root contains module `m`. -/
def rightConfig : Config := { searchRoots := ["lib"], ext := "py" }

/-- A world whose module `a` imports itself. -/
def selfWorld : World := { files := [("lib/a.py", [mkDecl ["a"]])] }

/-- A world whose modules `a` and `b` import each other. -/
def mutualWorld : World :=
  { files := [("lib/a.py", [mkDecl ["b"]]), ("lib/b.py", [mkDecl ["a"]])] }

/-! ## Theorems -/

/-- The symbol listing split into its four name groups, one per generating
loop of `magic.py` plus the final interpreter-internal line. -/
lemma magicNames_eq (bs ds cs : List String) :
    magicNames bs ds cs =
      bs.map nameOf ++ (dunderLines ds).map nameOf ++
        (ctypeLines cs).map nameOf ++ ["__value"] := by
  have h : nameOf "__value  # type: ignore" = "__value" := by decide
  simp [magicNames, magicOutput, h]

/-- Claim C3 (counterexample): it is not the case that every special-method
name in `DUNDERS` has its reflected counterpart in the generated listing —
`magic.py` deliberately skips `__req__` for the entry `eq`. -/
theorem dunders_reflected_claim_false :
    ¬ (∀ d ∈ DUNDERS,
        ("__" ++ d ++ "__") ∈ magicNames BUILTINS DUNDERS CTYPES ∧
        ("__r" ++ d ++ "__") ∈ magicNames BUILTINS DUNDERS CTYPES) := by
  decide

/-- All dunder entries together with their reflected counterparts, except
that the entry `eq` gets no reflected form. -/
lemma dunders_reflected_ball :
    ∀ d ∈ DUNDERS,
      ("__" ++ d ++ "__") ∈ magicNames BUILTINS DUNDERS CTYPES ∧
      (d ≠ "eq" → ("__r" ++ d ++ "__") ∈ magicNames BUILTINS DUNDERS CTYPES) := by
  decide

/-- Claim C3 (amended): for every special-method name `d` in the symbol
table, the generated listing contains `__d__`, and for every `d` other than
`eq` it also contains the reflected counterpart `__rd__`; `__req__` alone is
omitted. -/
theorem dunders_reflected_except_eq (d : String) (hd : d ∈ DUNDERS) :
    ("__" ++ d ++ "__") ∈ magicNames BUILTINS DUNDERS CTYPES ∧
    (d ≠ "eq" → ("__r" ++ d ++ "__") ∈ magicNames BUILTINS DUNDERS CTYPES) :=
  dunders_reflected_ball d hd

/-- Witness for the amended C3 at the concrete entry `add`. -/
theorem dunders_reflected_except_eq_witness :
    "add" ∈ DUNDERS ∧
      (("__" ++ "add" ++ "__") ∈ magicNames BUILTINS DUNDERS CTYPES ∧
       ("add" ≠ "eq" →
         ("__r" ++ "add" ++ "__") ∈ magicNames BUILTINS DUNDERS CTYPES)) :=
  ⟨by decide, dunders_reflected_except_eq "add" (by decide)⟩

/-- Claim C7: the three name groups the generator emits — builtin names,
special-method names (with reflections), and foreign-type aliases — are
pairwise disjoint, so no generated identifier falls into two categories. -/
theorem symbol_categories_disjoint :
    (∀ x ∈ BUILTINS.map nameOf, x ∉ (dunderLines DUNDERS).map nameOf) ∧
    (∀ x ∈ BUILTINS.map nameOf, x ∉ (ctypeLines CTYPES).map nameOf) ∧
    (∀ x ∈ (dunderLines DUNDERS).map nameOf,
       x ∉ (ctypeLines CTYPES).map nameOf) := by
  decide

/-- Every foreign-type alias yields both its base name and pointer name. -/
lemma ctypes_pair_ball :
    ∀ c ∈ CTYPES,
      ("c_" ++ c) ∈ magicNames BUILTINS DUNDERS CTYPES ∧
      ("c_" ++ c ++ "_p") ∈ magicNames BUILTINS DUNDERS CTYPES := by
  decide

/-- Claim C8: for every foreign-type alias `t` in the `CTYPES` table the
listing contains both `c_t` and its pointer variant `c_t_p`, and the ctype
loop emits exactly two lines per table entry (never one without the other). -/
theorem ctype_pointer_pairs (c : String) (hc : c ∈ CTYPES) :
    ("c_" ++ c) ∈ magicNames BUILTINS DUNDERS CTYPES ∧
    ("c_" ++ c ++ "_p") ∈ magicNames BUILTINS DUNDERS CTYPES ∧
    (ctypeLines CTYPES).length = 2 * CTYPES.length :=
  ⟨(ctypes_pair_ball c hc).1, (ctypes_pair_ball c hc).2, by decide⟩

/-- Witness for C8 at the concrete entry `char`. -/
theorem ctype_pointer_pairs_witness :
    "char" ∈ CTYPES ∧
      (("c_" ++ "char") ∈ magicNames BUILTINS DUNDERS CTYPES ∧
       ("c_" ++ "char" ++ "_p") ∈ magicNames BUILTINS DUNDERS CTYPES ∧
       (ctypeLines CTYPES).length = 2 * CTYPES.length) :=
  ⟨by decide, ctype_pointer_pairs "char" (by decide)⟩

/-- Claim C9: whatever the tables contain, the first printed line is the
fixed do-not-edit header and the last emitted identifier is `__value`; as
long as no table entry itself produces the name `__value` it is emitted
exactly once, and for the actual tables of `magic.py` none of the three
groups produces it. -/
theorem magic_header_and_value_line (bs ds cs : List String)
    (hb : "__value" ∉ bs.map nameOf)
    (hd : "__value" ∉ (dunderLines ds).map nameOf)
    (hc : "__value" ∉ (ctypeLines cs).map nameOf) :
    (magicOutput bs ds cs).head? = some header ∧
    (magicNames bs ds cs).getLast? = some "__value" ∧
    (magicNames bs ds cs).count "__value" = 1 ∧
    ("__value" ∉ BUILTINS.map nameOf ∧
     "__value" ∉ (dunderLines DUNDERS).map nameOf ∧
     "__value" ∉ (ctypeLines CTYPES).map nameOf) := by
  refine ⟨rfl, ?_, ?_, by decide, by decide, by decide⟩
  · rw [magicNames_eq]
    simp
  · rw [magicNames_eq]
    simp [List.count_append, List.count_eq_zero_of_not_mem hb,
      List.count_eq_zero_of_not_mem hd, List.count_eq_zero_of_not_mem hc]

/-- Witness for C9 at the actual tables of `magic.py`. -/
theorem magic_header_and_value_line_witness :
    "__value" ∉ BUILTINS.map nameOf ∧
      ((magicOutput BUILTINS DUNDERS CTYPES).head? = some header ∧
       (magicNames BUILTINS DUNDERS CTYPES).getLast? = some "__value" ∧
       (magicNames BUILTINS DUNDERS CTYPES).count "__value" = 1 ∧
       ("__value" ∉ BUILTINS.map nameOf ∧
        "__value" ∉ (dunderLines DUNDERS).map nameOf ∧
        "__value" ∉ (ctypeLines CTYPES).map nameOf)) :=
  ⟨by decide,
   magic_header_and_value_line BUILTINS DUNDERS CTYPES (by decide) (by decide)
     (by decide)⟩

/-- Claim C10: the generator consumes no input — its output depends only on
the three fixed tables — so two runs iterating the tables in different
orders emit the same set of lines. -/
theorem magic_output_set_deterministic (bs1 bs2 ds1 ds2 cs1 cs2 : List String)
    (hb : bs1.toFinset = bs2.toFinset) (hd : ds1.toFinset = ds2.toFinset)
    (hc : cs1.toFinset = cs2.toFinset) :
    (magicOutput bs1 ds1 cs1).toFinset = (magicOutput bs2 ds2 cs2).toFinset := by
  have hb' : ∀ x : String, x ∈ bs1 ↔ x ∈ bs2 := fun x => by
    rw [← List.mem_toFinset, hb, List.mem_toFinset]
  have hd' : ∀ x : String, x ∈ ds1 ↔ x ∈ ds2 := fun x => by
    rw [← List.mem_toFinset, hd, List.mem_toFinset]
  have hc' : ∀ x : String, x ∈ cs1 ↔ x ∈ cs2 := fun x => by
    rw [← List.mem_toFinset, hc, List.mem_toFinset]
  ext l
  simp only [List.mem_toFinset, magicOutput, dunderLines, ctypeLines,
    List.mem_cons, List.mem_append, List.mem_flatMap, hb', hd', hc']

/-- Witness for C10: two permuted table orders yield the same line set. -/
theorem magic_output_set_deterministic_witness :
    (["a", "b"] : List String).toFinset = (["b", "a", "a"] : List String).toFinset ∧
      (magicOutput ["a", "b"] ["x"] ["y"]).toFinset =
        (magicOutput ["b", "a", "a"] ["x"] ["y"]).toFinset :=
  ⟨by decide,
   magic_output_set_deterministic ["a", "b"] ["b", "a", "a"] ["x"] ["x"]
     ["y"] ["y"] (by decide) rfl rfl⟩

lemma regPre_refl (pending : List String) (mods : List (String × Module)) :
    RegPre pending mods mods :=
  ⟨fun _ _ => rfl, fun _ _ h => h, fun h => h⟩

lemma regPre_trans {pending : List String} {a b c : List (String × Module)}
    (h1 : RegPre pending a b) (h2 : RegPre pending b c) : RegPre pending a c :=
  ⟨fun n hn => (h2.1 n hn).trans (h1.1 n hn),
   fun n m hm => h2.2.1 n m (h1.2.1 n m hm),
   fun h => h2.2.2 (h1.2.2 h)⟩

lemma regPre_mono {nm : String} {pending : List String}
    {a b : List (String × Module)} (h : RegPre (nm :: pending) a b) :
    RegPre pending a b :=
  ⟨fun n hn => h.1 n (List.mem_cons_of_mem _ hn), h.2.1, h.2.2⟩

lemma lookupReg_eq_none_iff (mods : List (String × Module)) (n : String) :
    lookupReg mods n = none ↔ n ∉ regNames mods := by
  induction mods with
  | nil => simp [lookupReg, regNames]
  | cons kv rest ih =>
    obtain ⟨k, v⟩ := kv
    by_cases hk : k = n
    · subst hk
      simp [lookupReg, regNames]
    · simp [lookupReg, regNames, hk, ih, Ne.symm hk]

lemma lookupReg_cons_ne (k : String) (v : Module)
    (mods : List (String × Module)) (n : String) (h : k ≠ n) :
    lookupReg ((k, v) :: mods) n = lookupReg mods n := by
  simp [lookupReg, h]

/-- `resolveList` satisfies the registry contract whenever the underlying
resolver does. -/
lemma resolveList_regPre
    (f : List String → RState → List String → Except ImportError Module × RState)
    (pending : List String)
    (hf : ∀ st segs, RegPre pending st.modules ((f pending st segs).2).modules) :
    ∀ decls st,
      RegPre pending st.modules
        ((resolveList f pending st decls).2).modules := by
  intro decls
  induction decls with
  | nil => intro st; exact regPre_refl _ _
  | cons d rest ih =>
    intro st
    simp only [resolveList]
    have h1 := hf st d.moduleName
    cases hcall : f pending st d.moduleName with
    | mk r st2 =>
      rw [hcall] at h1
      cases r with
      | error e => exact h1
      | ok u => exact regPre_trans h1 (ih st2)

/-- Every resolver call satisfies the registry contract. -/
lemma resolveSegs_regPre (w : World) (cfg : Config) :
    ∀ (fuel : Nat) (pending : List String) (st : RState) (segs : List String),
      RegPre pending st.modules
        ((resolveSegs w cfg fuel pending st segs).2).modules := by
  intro fuel
  induction fuel with
  | zero => intro pending st segs; exact regPre_refl _ _
  | succ fuel ih =>
    intro pending st segs
    simp only [resolveSegs]
    cases hm : lookupReg st.modules (canonName segs) with
    | some m => exact regPre_refl _ _
    | none =>
      by_cases hp : canonName segs ∈ pending
      · simp only [if_pos hp]
        exact regPre_refl _ _
      · simp only [if_neg hp]
        cases hloc : locate w cfg.ext cfg.searchRoots segs with
        | none => exact regPre_refl _ _
        | some p =>
          dsimp only
          cases hfile : lookupFile w.files p with
          | none => exact regPre_refl _ _
          | some decls =>
            dsimp only
            have h2 :=
              resolveList_regPre (resolveSegs w cfg fuel)
                (canonName segs :: pending) (fun st' segs' => ih _ st' segs')
                decls { st with readLog := p :: st.readLog }
            cases hres : resolveList (resolveSegs w cfg fuel)
                (canonName segs :: pending)
                { st with readLog := p :: st.readLog } decls with
            | mk r st2 =>
              rw [hres] at h2
              cases r with
              | error e => exact regPre_mono h2
              | ok u =>
                dsimp only
                refine ⟨?_, ?_, ?_⟩
                · intro n hn
                  have hne : canonName segs ≠ n := fun hEq => hp (hEq ▸ hn)
                  rw [lookupReg_cons_ne _ _ _ _ hne]
                  exact h2.1 n (List.mem_cons_of_mem _ hn)
                · intro n m hsome
                  have hne : canonName segs ≠ n := by
                    intro hEq
                    rw [← hEq] at hsome
                    rw [hm] at hsome
                    exact Option.noConfusion hsome
                  rw [lookupReg_cons_ne _ _ _ _ hne]
                  exact h2.2.1 n m hsome
                · intro hnd
                  have hnone : lookupReg st2.modules (canonName segs) = none := by
                    rw [h2.1 (canonName segs) (List.mem_cons_self _ _)]
                    exact hm
                  have hnotmem := (lookupReg_eq_none_iff _ _).mp hnone
                  exact List.nodup_cons.mpr ⟨hnotmem, h2.2.2 hnd⟩

/-- A successful resolution leaves the returned module registered under its
canonical name (memoization source for later calls). -/
lemma resolveSegs_ok_lookup (w : World) (cfg : Config) (fuel : Nat)
    (pending : List String) (st : RState) (segs : List String) (m : Module)
    (st2 : RState)
    (h : resolveSegs w cfg fuel pending st segs = (Except.ok m, st2)) :
    lookupReg st2.modules (canonName segs) = some m := by
  cases fuel with
  | zero => simp [resolveSegs] at h
  | succ fuel =>
    simp only [resolveSegs] at h
    split at h
    · rename_i m' hm
      injection h with h1 h2
      injection h1 with h3
      subst h3
      subst h2
      exact hm
    · rename_i hm
      split at h
      · simp at h
      · split at h
        · simp at h
        · rename_i p hloc
          split at h
          · simp at h
          · rename_i decls hfile
            split at h
            · simp at h
            · rename_i u st3 hres
              injection h with h1 h2
              injection h1 with h3
              subst h3
              subst h2
              simp [lookupReg]

/-- A failed resolution never leaves the failing name registered. -/
lemma resolveSegs_error_not_registered (w : World) (cfg : Config) (fuel : Nat)
    (pending : List String) (st : RState) (segs : List String)
    (e : ImportError) (st2 : RState)
    (h : resolveSegs w cfg fuel pending st segs = (Except.error e, st2))
    (h0 : lookupReg st.modules (canonName segs) = none) :
    lookupReg st2.modules (canonName segs) = none := by
  cases fuel with
  | zero =>
    simp only [resolveSegs] at h
    injection h with h1 h2
    subst h2
    exact h0
  | succ fuel =>
    simp only [resolveSegs] at h
    split at h
    · simp at h
    · rename_i hm
      split at h
      · injection h with h1 h2
        subst h2
        exact h0
      · split at h
        · injection h with h1 h2
          subst h2
          exact h0
        · rename_i p hloc
          split at h
          · injection h with h1 h2
            subst h2
            exact h0
          · rename_i decls hfile
            split at h
            · rename_i e' st3 hres
              injection h with h1 h2
              subst h2
              have h2 :=
                resolveSegs_regPre w cfg fuel (canonName segs :: pending)
                  { st with readLog := p :: st.readLog } segs
              have h3 :=
                resolveList_regPre (resolveSegs w cfg fuel)
                  (canonName segs :: pending)
                  (fun st' segs' => resolveSegs_regPre w cfg fuel _ st' segs')
                  decls { st with readLog := p :: st.readLog }
              rw [hres] at h3
              rw [h3.1 (canonName segs) (List.mem_cons_self _ _)]
              exact h0
            · simp at h

/-- A name found in no search root fails with `moduleNotFound` and leaves
the whole resolver state untouched. -/
lemma resolveSegs_not_found (w : World) (cfg : Config) (fuel : Nat)
    (pending : List String) (st : RState) (segs : List String)
    (h0 : lookupReg st.modules (canonName segs) = none)
    (h1 : canonName segs ∉ pending)
    (h2 : locate w cfg.ext cfg.searchRoots segs = none) :
    resolveSegs w cfg (fuel + 1) pending st segs =
      (Except.error
        (ImportError.moduleNotFound (canonName segs) cfg.searchRoots), st) := by
  simp only [resolveSegs, h0, h1, h2, if_false]

/-- When the registry already holds the canonical name, resolution returns
the shared module immediately and changes nothing. -/
lemma resolveSegs_memo (w : World) (cfg : Config) (k : Nat)
    (pending : List String) (st : RState) (segs : List String) (m : Module)
    (hlook : lookupReg st.modules (canonName segs) = some m) :
    resolveSegs w cfg (k + 1) pending st segs = (Except.ok m, st) := by
  simp only [resolveSegs, hlook]

/-- Claim C1: compiling `"import builtins"` yields a program whose modules
mapping holds the entry module under `"__main__"` with import set
`{ImportDeclaration("builtins")}`, and `import_module` on that declaration
returns a module named `"builtins"` whose path is an existing file and whose
builder is non-null. -/
theorem compile_import_builtins_scenario :
    (∃ entry : Module,
        lookupReg
            (compile builtinsWorld builtinsConfig
              "import builtins").state.modules "__main__" = some entry ∧
          entry.imports = [mkDecl ["builtins"]]) ∧
    (∃ (m : Module) (p2 : CompiledProgram),
        importModule (compile builtinsWorld builtinsConfig "import builtins")
            (mkDecl ["builtins"]) 2 = (Except.ok m, p2) ∧
          m.name = "builtins" ∧ m.path ∈ fileNames builtinsWorld ∧
          m.builder ≠ none) :=
  ⟨⟨mainMod, by decide, by decide⟩,
   ⟨bMod, bProg2, by decide, by decide, by decide, by decide⟩⟩

/-- Claim C2: resolving the same declaration twice in one program returns
the same module object both times; the second call leaves the program —
registry and read log — untouched, so the backing artifact is read and
parsed at most once; and registry key uniqueness is preserved, so the
registry never holds two distinct modules for one canonical name. -/
theorem import_module_memoized (p p2 : CompiledProgram)
    (decl : ImportDeclaration) (fuel fuel2 : Nat) (m : Module)
    (h : importModule p decl fuel = (Except.ok m, p2)) (h2 : 1 ≤ fuel2) :
    importModule p2 decl fuel2 = (Except.ok m, p2) ∧
    ((regNames p.state.modules).Nodup → (regNames p2.state.modules).Nodup) := by
  simp only [importModule] at h
  injection h with h1 hp2
  subst hp2
  have hok : resolveSegs p.world p.cfg fuel [] p.state decl.moduleName =
      (Except.ok m,
        (resolveSegs p.world p.cfg fuel [] p.state decl.moduleName).2) := by
    rw [← h1]
  have hlook := resolveSegs_ok_lookup _ _ _ _ _ _ _ _ hok
  cases fuel2 with
  | zero => exact absurd h2 (by decide)
  | succ k =>
    constructor
    · simp only [importModule]
      rw [resolveSegs_memo _ _ _ _ _ _ _ hlook]
    · intro hnd
      exact (resolveSegs_regPre p.world p.cfg fuel [] p.state
        decl.moduleName).2.2 hnd

/-- Witness for C2 at the `test_import.py` scenario. -/
theorem import_module_memoized_witness :
    importModule (compile builtinsWorld builtinsConfig "import builtins")
        (mkDecl ["builtins"]) 2 = (Except.ok bMod, bProg2) ∧ 1 ≤ 1 ∧
      (importModule bProg2 (mkDecl ["builtins"]) 1 = (Except.ok bMod, bProg2) ∧
       ((regNames (compile builtinsWorld builtinsConfig
            "import builtins").state.modules).Nodup →
          (regNames bProg2.state.modules).Nodup)) :=
  ⟨by decide, by decide,
   import_module_memoized _ bProg2 (mkDecl ["builtins"]) 2 1 bMod (by decide)
     (by decide)⟩

/-- Claim C5: a name found in no search root fails with `moduleNotFound`
leaving the state untouched; after any failure the failing name is not
registered (no broken `Resolved` entry) and every previously registered
module keeps its binding (unrelated modules are not corrupted); and a retry
with corrected search roots succeeds. -/
theorem module_not_found_state_clean (w : World) (cfg : Config) (fuel : Nat)
    (pending : List String) (st st2 : RState) (segs : List String)
    (e : ImportError) :
    (lookupReg st.modules (canonName segs) = none →
     canonName segs ∉ pending →
     locate w cfg.ext cfg.searchRoots segs = none →
     resolveSegs w cfg (fuel + 1) pending st segs =
       (Except.error
         (ImportError.moduleNotFound (canonName segs) cfg.searchRoots), st)) ∧
    (resolveSegs w cfg fuel pending st segs = (Except.error e, st2) →
     lookupReg st.modules (canonName segs) = none →
     lookupReg st2.modules (canonName segs) = none) ∧
    (∀ n mo, lookupReg st.modules n = some mo →
       lookupReg ((resolveSegs w cfg fuel pending st segs).2).modules n =
         some mo) ∧
    resolveSegs retryWorld wrongConfig 1 [] { modules := [], readLog := [] }
        ["m"] =
      (Except.error (ImportError.moduleNotFound "m" ["nope"]),
       { modules := [], readLog := [] }) ∧
    (resolveSegs retryWorld rightConfig 2 []
        { modules := [], readLog := [] } ["m"]).1 =
      Except.ok
        { name := "m", path := "lib/m.py", builder := some "lib/m.py",
          imports := [] } :=
  ⟨fun h0 h1 h2 => resolveSegs_not_found w cfg fuel pending st segs h0 h1 h2,
   fun h h0 =>
     resolveSegs_error_not_registered w cfg fuel pending st segs e st2 h h0,
   (resolveSegs_regPre w cfg fuel pending st segs).2.1,
   by decide, by decide⟩

/-- Witness for C5: the retry scenario with the wrong search root. -/
theorem module_not_found_state_clean_witness :
    lookupReg (RState.mk [] []).modules (canonName ["m"]) = none ∧
    canonName ["m"] ∉ ([] : List String) ∧
    locate retryWorld wrongConfig.ext wrongConfig.searchRoots ["m"] = none ∧
    resolveSegs retryWorld wrongConfig (1 + 1) [] (RState.mk [] []) ["m"] =
      (Except.error
        (ImportError.moduleNotFound (canonName ["m"]) wrongConfig.searchRoots),
       RState.mk [] []) :=
  ⟨by decide, by decide, by decide,
   (module_not_found_state_clean retryWorld wrongConfig 1 [] (RState.mk [] [])
       (RState.mk [] []) ["m"] ImportError.outOfFuel).1 (by decide) (by decide)
     (by decide)⟩

/-- Peeling one root off the search path: the root's own probe decides
before any later root is consulted. -/
lemma locate_cons (w : World) (ext r : String) (rest segs : List String) :
    locate w ext (r :: rest) segs =
      match rootProbe w ext segs r with
      | some p => some p
      | none => locate w ext rest segs := by
  by_cases h1 : modulePath r ext segs ∈ fileNames w
  · simp [locate, rootProbe, h1]
  · by_cases h2 : initPath r ext segs ∈ fileNames w
    · simp [locate, rootProbe, h1, h2]
    · simp [locate, rootProbe, h1, h2]

/-- Claim C6: `locate` probes the roots in order and returns the first
root's match (the result is the head of the per-root probe results, so it
depends only on the root ordering); within a root the single-file candidate
wins over the package candidate; it returns not-found exactly when every
root's probe fails; and in that case resolution raises `moduleNotFound`. -/
theorem locate_first_match_contract (w : World) (ext : String)
    (segs : List String) :
    (∀ roots : List String,
       locate w ext roots segs =
         (roots.filterMap (rootProbe w ext segs)).head?) ∧
    (∀ r : String, modulePath r ext segs ∈ fileNames w →
       rootProbe w ext segs r = some (modulePath r ext segs)) ∧
    (∀ roots : List String,
       locate w ext roots segs = none ↔
         ∀ r ∈ roots, rootProbe w ext segs r = none) ∧
    (∀ (cfg : Config) (fuel : Nat) (st : RState),
       lookupReg st.modules (canonName segs) = none →
       locate w cfg.ext cfg.searchRoots segs = none →
       resolveSegs w cfg (fuel + 1) [] st segs =
         (Except.error
           (ImportError.moduleNotFound (canonName segs) cfg.searchRoots),
          st)) := by
  have hfm : ∀ roots : List String,
      locate w ext roots segs =
        (roots.filterMap (rootProbe w ext segs)).head? := by
    intro roots
    induction roots with
    | nil => rfl
    | cons r rest ih =>
      rw [locate_cons]
      cases hp : rootProbe w ext segs r with
      | some p => simp [List.filterMap_cons, hp]
      | none => simp [List.filterMap_cons, hp, ih]
  refine ⟨hfm, ?_, ?_, ?_⟩
  · intro r h
    simp [rootProbe, h]
  · intro roots
    rw [hfm roots]
    simp [List.head?_eq_none_iff, List.filterMap_eq_nil_iff]
  · intro cfg fuel st h0 hl
    exact resolveSegs_not_found w cfg fuel [] st segs h0 (by simp) hl

/-- Witness for C6 at the `test_import.py` world. -/
theorem locate_first_match_contract_witness :
    locate builtinsWorld "py" ["lib"] ["builtins"] =
      ((["lib"] : List String).filterMap
          (rootProbe builtinsWorld "py" ["builtins"])).head? ∧
    modulePath "lib" "py" ["builtins"] ∈ fileNames builtinsWorld ∧
    rootProbe builtinsWorld "py" ["builtins"] "lib" =
      some (modulePath "lib" "py" ["builtins"]) :=
  ⟨(locate_first_match_contract builtinsWorld "py" ["builtins"]).1 ["lib"],
   by decide,
   (locate_first_match_contract builtinsWorld "py" ["builtins"]).2.1 "lib"
     (by decide)⟩

/-- Re-entering a name already on the in-progress stack fails immediately
with the cycle read off the stack, touching nothing. -/
lemma resolveSegs_cycle (w : World) (cfg : Config) (fuel : Nat)
    (pending : List String) (st : RState) (segs : List String)
    (h0 : lookupReg st.modules (canonName segs) = none)
    (h1 : canonName segs ∈ pending) :
    resolveSegs w cfg (fuel + 1) pending st segs =
      (Except.error
        (ImportError.circularImport (cycleOf pending (canonName segs))), st) := by
  simp only [resolveSegs, h0, if_pos h1]

/-- Unfolding one resolution step once the artifact has been located and
parsed: what remains is resolving the artifact's own imports and, on
success, registering the module. -/
lemma resolveSegs_step (w : World) (cfg : Config) (fuel : Nat)
    (pending : List String) (st : RState) (segs : List String) (p : String)
    (decls : List ImportDeclaration)
    (h0 : lookupReg st.modules (canonName segs) = none)
    (h1 : canonName segs ∉ pending)
    (hloc : locate w cfg.ext cfg.searchRoots segs = some p)
    (hfile : lookupFile w.files p = some decls) :
    resolveSegs w cfg (fuel + 1) pending st segs =
      match resolveList (resolveSegs w cfg fuel) (canonName segs :: pending)
          { st with readLog := p :: st.readLog } decls with
      | (Except.error e, st2) => (Except.error e, st2)
      | (Except.ok _, st2) =>
        (Except.ok
          { name := canonName segs, path := p, builder := some p,
            imports := decls },
         { st2 with
            modules :=
              (canonName segs,
                { name := canonName segs, path := p, builder := some p,
                  imports := decls }) :: st2.modules }) := by
  simp only [resolveSegs, h0, h1, hloc, hfile, if_false]

/-- Claim C4: a self-importing module `a` fails with `circularImport`
reporting the cycle `[a, a]`, and a mutually importing pair `a → b → a`
fails reporting `[a, b, a]`; the result, state included, is the same for
every sufficient recursion budget `k`, so resolution is bounded and never
recurses infinitely. -/
theorem circular_import_detected (w : World) (cfg : Config) (st : RState)
    (segsA segsB : List String) (pA pB : String) (k : Nat) :
    (lookupReg st.modules (canonName segsA) = none →
     locate w cfg.ext cfg.searchRoots segsA = some pA →
     lookupFile w.files pA = some [mkDecl segsA] →
     resolveSegs w cfg (k + 1 + 1) [] st segsA =
       (Except.error
         (ImportError.circularImport [canonName segsA, canonName segsA]),
        { st with readLog := pA :: st.readLog })) ∧
    (canonName segsA ≠ canonName segsB →
     lookupReg st.modules (canonName segsA) = none →
     lookupReg st.modules (canonName segsB) = none →
     locate w cfg.ext cfg.searchRoots segsA = some pA →
     locate w cfg.ext cfg.searchRoots segsB = some pB →
     lookupFile w.files pA = some [mkDecl segsB] →
     lookupFile w.files pB = some [mkDecl segsA] →
     resolveSegs w cfg (k + 1 + 1 + 1) [] st segsA =
       (Except.error
         (ImportError.circularImport
           [canonName segsA, canonName segsB, canonName segsA]),
        { st with readLog := pB :: pA :: st.readLog })) := by
  constructor
  · intro h0 hloc hfile
    have hinner :
        resolveSegs w cfg (k + 1) [canonName segsA]
            { st with readLog := pA :: st.readLog } segsA =
          (Except.error
            (ImportError.circularImport [canonName segsA, canonName segsA]),
           { st with readLog := pA :: st.readLog }) := by
      rw [resolveSegs_cycle w cfg k [canonName segsA]
        { st with readLog := pA :: st.readLog } segsA h0
        (List.mem_singleton.mpr rfl)]
      simp [cycleOf]
    have hlist :
        resolveList (resolveSegs w cfg (k + 1)) [canonName segsA]
            { st with readLog := pA :: st.readLog } [mkDecl segsA] =
          (Except.error
            (ImportError.circularImport [canonName segsA, canonName segsA]),
           { st with readLog := pA :: st.readLog }) := by
      simp only [resolveList, mkDecl]
      rw [hinner]
    rw [resolveSegs_step w cfg (k + 1) [] st segsA pA [mkDecl segsA] h0
      (List.not_mem_nil _) hloc hfile]
    rw [hlist]
  · intro hne h0a h0b hlocA hlocB hfileA hfileB
    have hinner :
        resolveSegs w cfg (k + 1) [canonName segsB, canonName segsA]
            { st with readLog := pB :: pA :: st.readLog } segsA =
          (Except.error
            (ImportError.circularImport
              [canonName segsA, canonName segsB, canonName segsA]),
           { st with readLog := pB :: pA :: st.readLog }) := by
      rw [resolveSegs_cycle w cfg k [canonName segsB, canonName segsA]
        { st with readLog := pB :: pA :: st.readLog } segsA h0a
        (by simp)]
      have hb : (canonName segsB != canonName segsA) = true :=
        bne_iff_ne.mpr (Ne.symm hne)
      simp [cycleOf, hb]
    have hlistB :
        resolveList (resolveSegs w cfg (k + 1))
            [canonName segsB, canonName segsA]
            { st with readLog := pB :: pA :: st.readLog } [mkDecl segsA] =
          (Except.error
            (ImportError.circularImport
              [canonName segsA, canonName segsB, canonName segsA]),
           { st with readLog := pB :: pA :: st.readLog }) := by
      simp only [resolveList, mkDecl]
      rw [hinner]
    have hmid :
        resolveSegs w cfg (k + 1 + 1) [canonName segsA]
            { st with readLog := pA :: st.readLog } segsB =
          (Except.error
            (ImportError.circularImport
              [canonName segsA, canonName segsB, canonName segsA]),
           { st with readLog := pB :: pA :: st.readLog }) := by
      rw [resolveSegs_step w cfg (k + 1) [canonName segsA]
        { st with readLog := pA :: st.readLog } segsB pB [mkDecl segsA] h0b
        (by simp [Ne.symm hne]) hlocB hfileB]
      rw [hlistB]
    have hlistA :
        resolveList (resolveSegs w cfg (k + 1 + 1)) [canonName segsA]
            { st with readLog := pA :: st.readLog } [mkDecl segsB] =
          (Except.error
            (ImportError.circularImport
              [canonName segsA, canonName segsB, canonName segsA]),
           { st with readLog := pB :: pA :: st.readLog }) := by
      simp only [resolveList, mkDecl]
      rw [hmid]
    rw [resolveSegs_step w cfg (k + 1 + 1) [] st segsA pA [mkDecl segsB] h0a
      (List.not_mem_nil _) hlocA hfileA]
    rw [hlistA]

/-- Witness for C4: the self-import and mutual-import scenarios at budget
`k = 0`. -/
theorem circular_import_detected_witness :
    lookupReg (RState.mk [] []).modules (canonName ["a"]) = none ∧
    locate selfWorld rightConfig.ext rightConfig.searchRoots ["a"] =
      some "lib/a.py" ∧
    lookupFile selfWorld.files "lib/a.py" = some [mkDecl ["a"]] ∧
    resolveSegs selfWorld rightConfig (0 + 1 + 1) [] (RState.mk [] []) ["a"] =
      (Except.error
        (ImportError.circularImport [canonName ["a"], canonName ["a"]]),
       RState.mk [] ["lib/a.py"]) ∧
    resolveSegs mutualWorld rightConfig (0 + 1 + 1 + 1) [] (RState.mk [] [])
        ["a"] =
      (Except.error
        (ImportError.circularImport
          [canonName ["a"], canonName ["b"], canonName ["a"]]),
       RState.mk [] ["lib/b.py", "lib/a.py"]) :=
  ⟨rfl, rfl, rfl,
   (circular_import_detected selfWorld rightConfig (RState.mk [] []) ["a"]
       ["b"] "lib/a.py" "x" 0).1 rfl rfl rfl,
   (circular_import_detected mutualWorld rightConfig (RState.mk [] []) ["a"]
       ["b"] "lib/a.py" "lib/b.py" 0).2 (by decide) rfl rfl rfl rfl rfl rfl⟩

end Monty
